import Mathlib

/-!
# Verification of the Fiber reconciler container API and its DOM adapter

Shallow embedding of `ReactFiberReconciler` (the container / root registry of
the reconciliation core) and of `ReactDOMFiber` (the browser-DOM target
adapter and the public entry points built on top of the core).

Opaque JavaScript values (elements, callbacks, instances, context objects,
parent components) are represented by `Nat` handles; `null`/`undefined`
becomes `Option`.  Functions that perform observable calls additionally
return a trace of events so that ordering and call-count properties can be
stated.
-/

namespace ReactFiber

/-- Priority levels of the scheduler.  Modelled from the spec:
`ReactPriorityLevel` is not under src; the spec lists the closed ordered set
Synchronous, Task, Animation, High, Low, Offscreen, NoWork ("lower value =
more urgent", `NoWork` = nothing pending). -/
inductive PriorityLevel where
  | noWork
  | synchronousPriority
  | taskPriority
  | animationPriority
  | highPriority
  | lowPriority
  | offscreenPriority
  deriving DecidableEq, Repr

/-- Opaque handles for JavaScript values the core never inspects. -/
abbrev Elem := Nat
abbrev Callback := Nat
abbrev ContextValue := Nat
abbrev ParentComponent := Nat
abbrev Instance := Nat

/-- A work node of the intrusive fiber tree (`child` / `sibling` pointers,
`null` made explicit).  A `host` node owns a concrete output instance
(`stateNode`); a `comp` node represents a non-rendering construct whose
`stateNode` is null. -/
inductive FiberLink where
  | null : FiberLink
  | host (inst : Instance) (child sibling : FiberLink) : FiberLink
  | comp (child sibling : FiberLink) : FiberLink
  deriving DecidableEq, Repr

/-- `fiber.stateNode`: the output-instance handle, null on non-host nodes. -/
def FiberLink.stateNode : FiberLink → Option Instance
  | .null => none
  | .host i _ _ => some i
  | .comp _ _ => none

/-- `fiber.child` as a nullable pointer. -/
def FiberLink.childOf : FiberLink → FiberLink
  | .null => .null
  | .host _ c _ => c
  | .comp c _ => c

/-- A `FiberRoot`: the container's top fiber plus the context fields read and
written by `updateContainer`.  The fiber and container handles are opaque. -/
structure FiberRoot where
  current : FiberLink
  containerInfo : Nat
  context : Option ContextValue
  pendingContext : Option ContextValue
  deriving DecidableEq, Repr

/-- Modelled from the spec: `createFiberRoot` (ReactFiberRoot is not under
src) allocates a Root whose "initial current tree is empty" and whose active
and pending context values are unset. -/
def createFiberRoot (containerInfo : Nat) : FiberRoot :=
  { current := .comp .null .null
    containerInfo := containerInfo
    context := none
    pendingContext := none }

/-- Observable calls made by `updateContainer`, in order. -/
inductive REvent where
  | getPriorityContext (p : PriorityLevel)
  | addTopLevelUpdate (fiber : FiberLink) (element : Option Elem)
      (callback : Option Callback) (p : PriorityLevel)
  | scheduleUpdate (fiber : FiberLink) (p : PriorityLevel)
  deriving DecidableEq, Repr

/-- `updateContainer(element, container, parentComponent, callback)`.

The context resolver (`getContextForSubtree`, injected from the component
subsystem and not under src) is passed as the function `resolve`; per the
spec it has shape `(node) -> ContextValue`, so it returns a context value,
never null.  `ambient` is the current ambient priority that
`getPriorityContext()` reads.  Returns the updated root together with the
trace of calls the body makes. -/
def updateContainer (resolve : Option ParentComponent → ContextValue)
    (ambient : PriorityLevel) (element : Option Elem) (container : FiberRoot)
    (parentComponent : Option ParentComponent) (callback : Option Callback) :
    FiberRoot × List REvent :=
  let container' :=
    if container.context = none then
      { container with context := some (resolve parentComponent) }
    else
      { container with pendingContext := some (resolve parentComponent) }
  let priorityLevel := ambient
  (container',
    [ REvent.getPriorityContext priorityLevel,
      REvent.addTopLevelUpdate container.current element callback priorityLevel,
      REvent.scheduleUpdate container.current priorityLevel ])

/-- `getPublicRootInstance(container)`: null when the top fiber has no child,
otherwise the child's `stateNode`. -/
def getPublicRootInstance (container : FiberRoot) : Option Instance :=
  match container.current.childOf with
  | .null => none
  | c => c.stateNode

/-- Modelled from the spec: `findCurrentHostFiber`
(ReactFiberTreeReflection is not under src) "walks from an arbitrary work
node down to the nearest descendant that owns a concrete output-instance
(skips nodes representing non-rendering constructs); returns null if none
exists."  This variant searches a node together with its following siblings,
depth first, children before siblings. -/
def findHostInList : FiberLink → Option FiberLink
  | .null => none
  | .host i c s => some (.host i c s)
  | .comp c s =>
    match findHostInList c with
    | some h => some h
    | none => findHostInList s

/-- Modelled from the spec: `findCurrentHostFiber` on a single node — the
node itself if it owns an output instance, else the nearest host node among
its descendants (siblings of the starting node are not searched). -/
def findCurrentHostFiber : FiberLink → Option FiberLink
  | .null => none
  | .host i c s => some (.host i c s)
  | .comp c _ => findHostInList c

/-- `findHostInstance(fiber)`: null when `findCurrentHostFiber` finds
nothing, else the found host fiber's `stateNode`. -/
def findHostInstance (fiber : FiberLink) : Option Instance :=
  match findCurrentHostFiber fiber with
  | none => none
  | some hostFiber => hostFiber.stateNode

/-- Pre-order listing of a node, its descendants, and its following siblings
with their descendants. -/
def preorderList : FiberLink → List FiberLink
  | .null => []
  | .host i c s => .host i c s :: (preorderList c ++ preorderList s)
  | .comp c s => .comp c s :: (preorderList c ++ preorderList s)

/-- Pre-order listing of a node and its descendants (siblings excluded). -/
def preorderTree : FiberLink → List FiberLink
  | .null => []
  | .host i c s => .host i c s :: preorderList c
  | .comp c s => .comp c s :: preorderList c

/-- Whether a fiber owns a concrete output instance. -/
def ownsInstance (f : FiberLink) : Bool :=
  f.stateNode.isSome

/-- Root identifiers for the scheduler model. -/
abbrev RootId := Nat

/-- Observable scheduler events: one `commit r` is one Commit Pipeline run
for root `r` (the run inside which all of that root's coalesced mutations
are applied through the adapter). -/
inductive SEvent where
  | commit (root : RootId)
  deriving DecidableEq, Repr

/-- Scheduler state visible to the batching model: whether we are inside a
`batchedUpdates` call, and the roots with coalesced pending work. -/
structure SchedulerState where
  isBatchingUpdates : Bool
  pendingRoots : List RootId
  deriving DecidableEq, Repr

/-- Record a root as having pending work, once. -/
def enqueueRoot (roots : List RootId) (r : RootId) : List RootId :=
  if r ∈ roots then roots else roots ++ [r]

/-- Modelled from the spec: `scheduleUpdate` of ReactFiberScheduler (not
under src).  A Synchronous update "is processed and committed before this
call returns"; inside `batchedUpdates` scheduling is suppressed and the
root's work is coalesced; outside batching, scheduling is
immediate-per-update. -/
def scheduleUpdate (s : SchedulerState) (root : RootId) (p : PriorityLevel) :
    SchedulerState × List SEvent :=
  if p = PriorityLevel.synchronousPriority then
    ({ s with pendingRoots := s.pendingRoots.filter (fun r => r != root) },
      [SEvent.commit root])
  else if s.isBatchingUpdates then
    ({ s with pendingRoots := enqueueRoot s.pendingRoots root }, [])
  else
    (s, [SEvent.commit root])

/-- Run a sequence of `scheduleUpdate` calls (the updates enqueued by the
function passed to a batching wrapper), collecting emitted events. -/
def runUpdates : SchedulerState → List (RootId × PriorityLevel) →
    SchedulerState × List SEvent
  | s, [] => (s, [])
  | s, (r, p) :: rest =>
    let step := scheduleUpdate s r p
    let next := runUpdates step.1 rest
    (next.1, step.2 ++ next.2)

/-- Modelled from the spec: `batchedUpdates(fn)` (ReactFiberScheduler is not
under src) "suppresses immediate scheduling; all updates enqueued during
`fn` are coalesced and processed together once `fn` returns (single commit
for N updates, unless an update itself demands Synchronous priority)".
`fn` is represented by the list of updates it enqueues; on exit every
pending root is committed in one Commit Pipeline run each. -/
def batchedUpdates (updates : List (RootId × PriorityLevel)) : List SEvent :=
  let s0 : SchedulerState := { isBatchingUpdates := true, pendingRoots := [] }
  let run := runUpdates s0 updates
  run.2 ++ run.1.pendingRoots.map SEvent.commit

/-- One call description for a sequence of `updateContainer` calls on the
same root: the element, parent component, callback and ambient priority of
that call. -/
structure UCall where
  element : Option Elem
  parentComponent : Option ParentComponent
  callback : Option Callback
  ambient : PriorityLevel
  deriving DecidableEq, Repr

/-- Apply one described `updateContainer` call, keeping only the root. -/
def applyUCall (resolve : Option ParentComponent → ContextValue)
    (root : FiberRoot) (c : UCall) : FiberRoot :=
  (updateContainer resolve c.ambient c.element root c.parentComponent c.callback).1

/-- Apply a sequence of described `updateContainer` calls, left to right. -/
def applyUCalls (resolve : Option ParentComponent → ContextValue)
    (root : FiberRoot) (cs : List UCall) : FiberRoot :=
  cs.foldl (applyUCall resolve) root

end ReactFiber

namespace ReactDOMFiber

/-- `ELEMENT_NODE_TYPE`. -/
def elementNodeType : Nat := 1

/-- `DOC_NODE_TYPE` (= `DOCUMENT_NODE`). -/
def docNodeType : Nat := 9

/-- `DOCUMENT_FRAGMENT_NODE_TYPE`. -/
def documentFragmentNodeType : Nat := 11

/-- A DOM container as the entry points observe it: its `nodeType`, its
current list of child-node handles, and the `_reactRootContainer` expando
(a handle to the FiberRoot, if one was attached).  `self` is the node's own
handle, used to tag mutation events.  For a Document (`nodeType` 9) the
`children`/`reactRootContainer` fields are those of its `documentElement`,
which is the effective container the source redirects to. -/
structure DOMContainerNode where
  self : Nat
  nodeType : Nat
  children : List Nat
  reactRootContainer : Option Nat
  deriving DecidableEq, Repr

/-- `isValidContainer(node)`: null is rejected, and the node type must be
element, document, or document fragment. -/
def isValidContainer : Option DOMContainerNode → Bool
  | none => false
  | some n =>
    n.nodeType == elementNodeType ||
    n.nodeType == docNodeType ||
    n.nodeType == documentFragmentNodeType

/-- Observable calls made by the DOM entry points and adapter, in order. -/
inductive DEvent where
  | removeChild (parent child : Nat)
  | createContainer (container : Nat)
  | unbatchedBegin
  | unbatchedEnd
  | updateContainerCall (element : Option ReactFiber.Elem) (root : Nat)
      (parentComponent : Option Nat) (callback : Option ReactFiber.Callback)
  | getPublicRootInstanceCall (root : Nat)
  | setInitialProperties (domElement : Nat) (type : String) (container : Nat)
  | focus (domElement : Nat)
  deriving DecidableEq, Repr

/-- `renderSubtreeIntoContainer(parentComponent, children, containerNode,
callback)`.  `newRoot` is the handle the reconciler's `createContainer`
returns if it is reached.  The result is the outcome (thrown error or
updated container) paired with the trace of calls made; a thrown validation
error leaves the trace empty.  The completion callback passed through to
`updateContainer` runs only when the enqueued update later commits, which is
outside this function's body. -/
def renderSubtreeIntoContainer (parentComponent : Option Nat)
    (children : Option ReactFiber.Elem) (containerNode : Option DOMContainerNode)
    (callback : Option ReactFiber.Callback) (newRoot : Nat) :
    Except String DOMContainerNode × List DEvent :=
  match containerNode with
  | none => (Except.error "Target container is not a DOM element.", [])
  | some container =>
    if isValidContainer (some container) then
      match container.reactRootContainer with
      | none =>
        (Except.ok { container with children := [], reactRootContainer := some newRoot },
          (container.children.reverse.map fun c => DEvent.removeChild container.self c) ++
            [ DEvent.createContainer container.self,
              DEvent.unbatchedBegin,
              DEvent.updateContainerCall children newRoot parentComponent callback,
              DEvent.unbatchedEnd,
              DEvent.getPublicRootInstanceCall newRoot ])
      | some root =>
        (Except.ok container,
          [ DEvent.updateContainerCall children root parentComponent callback,
            DEvent.getPublicRootInstanceCall root ])
    else
      (Except.error "Target container is not a DOM element.", [])

/-- `ReactDOM.render(element, container, callback)`: validates the container
and delegates to `renderSubtreeIntoContainer` with a null parent. -/
def render (element : ReactFiber.Elem) (container : Option DOMContainerNode)
    (callback : Option ReactFiber.Callback) (newRoot : Nat) :
    Except String DOMContainerNode × List DEvent :=
  if isValidContainer container then
    renderSubtreeIntoContainer none (some element) container callback newRoot
  else
    (Except.error "Target container is not a DOM element.", [])

/-- `ReactDOM.unmountComponentAtNode(container)`: the invariant rejects
invalid containers; with a root attached it reconciles against a null
description inside `unbatchedUpdates` (the completion callback that nulls
`_reactRootContainer` runs at commit time, outside this body); with no root
attached the body does nothing. -/
def unmountComponentAtNode (container : Option DOMContainerNode) (newRoot : Nat) :
    Except String DOMContainerNode × List DEvent :=
  match container with
  | none =>
    (Except.error "unmountComponentAtNode(...): Target container is not a DOM element.", [])
  | some c =>
    if isValidContainer (some c) then
      match c.reactRootContainer with
      | some _ =>
        let inner := renderSubtreeIntoContainer none none (some c) none newRoot
        (inner.1, DEvent.unbatchedBegin :: (inner.2 ++ [DEvent.unbatchedEnd]))
      | none => (Except.ok c, [])
    else
      (Except.error "unmountComponentAtNode(...): Target container is not a DOM element.", [])

/-- The browser-global state the commit bracket touches: the event emitter's
enabled flag and the current input selection (opaque handle). -/
structure BrowserEnv where
  emitterEnabled : Bool
  selection : Nat
  deriving DecidableEq, Repr

/-- The adapter's module-level variables `eventsEnabled` and
`selectionInformation`, both initially null. -/
structure CommitVars where
  eventsEnabled : Option Bool
  selectionInformation : Option Nat
  deriving DecidableEq, Repr

/-- `ReactBrowserEventEmitter.isEnabled()`. -/
def isEnabled (env : BrowserEnv) : Bool := env.emitterEnabled

/-- `ReactBrowserEventEmitter.setEnabled(b)`: takes a nullable boolean; null
coerces to false. -/
def setEnabled (b : Option Bool) (env : BrowserEnv) : BrowserEnv :=
  { env with emitterEnabled := b == some true }

/-- `ReactInputSelection.getSelectionInformation()`. -/
def getSelectionInformation (env : BrowserEnv) : Nat := env.selection

/-- `ReactInputSelection.restoreSelection(info)`. -/
def restoreSelection (info : Option Nat) (env : BrowserEnv) : BrowserEnv :=
  match info with
  | some s => { env with selection := s }
  | none => env

/-- Browser state together with the adapter's module-level variables. -/
structure DOMCommitState where
  env : BrowserEnv
  vars : CommitVars
  deriving DecidableEq, Repr

/-- The adapter's `prepareForCommit`: save the emitter flag and the
selection into the module-level variables, then disable events. -/
def prepareForCommit (s : DOMCommitState) : DOMCommitState :=
  { env := setEnabled (some false) s.env
    vars := { eventsEnabled := some (isEnabled s.env)
              selectionInformation := some (getSelectionInformation s.env) } }

/-- The adapter's `resetAfterCommit`: restore the selection, null the saved
selection, restore the emitter flag from the saved value, null it. -/
def resetAfterCommit (s : DOMCommitState) : DOMCommitState :=
  { env := setEnabled s.vars.eventsEnabled (restoreSelection s.vars.selectionInformation s.env)
    vars := { eventsEnabled := none, selectionInformation := none } }

/-- DOM component props as the autofocus logic sees them (`autoFocus ?:
boolean`, so a missing value and `false` are both non-truthy). -/
structure Props where
  autoFocus : Option Bool
  children : Option Nat
  deriving DecidableEq, Repr

/-- `shouldAutoFocusHostComponent(type, props)`: the switch falls through
its four case labels to `!!props.autoFocus`; every other type returns
false. -/
def shouldAutoFocusHostComponent (type : String) (props : Props) : Bool :=
  if type = "button" ∨ type = "input" ∨ type = "select" ∨ type = "textarea" then
    props.autoFocus == some true
  else
    false

/-- The adapter's `finalizeInitialChildren`: applies the initial properties
to the DOM element and reports whether the node needs a deferred mount
effect. -/
def finalizeInitialChildren (domElement : Nat) (type : String) (props : Props)
    (rootContainerInstance : Nat) : Bool × List DEvent :=
  (shouldAutoFocusHostComponent type props,
    [DEvent.setInitialProperties domElement type rootContainerInstance])

/-- The adapter's `commitMount`: unconditionally focuses the instance. -/
def commitMount (domElement : Nat) (type : String) (newProps : Props)
    (internalInstanceHandle : Nat) : List DEvent :=
  [DEvent.focus domElement]

/-- Modelled from the spec: the Commit Pipeline (ReactFiberScheduler is not
under src) records, during the mutation phase, each newly-inserted node
whose `finalizeInitialChildren` returned true, and after the commit calls
`commitMount` on each recorded node in effect-list order.  A recorded node
is `(domElement, type, props)`; the opaque internal handle passed to
`commitMount` is irrelevant to its behaviour. -/
def commitMountPass (inserted : List (Nat × String × Props)) : List DEvent :=
  (inserted.filter fun e => shouldAutoFocusHostComponent e.2.1 e.2.2).flatMap
    fun e => commitMount e.1 e.2.1 e.2.2 e.1

end ReactDOMFiber

namespace ReactFiber

theorem updateContainer_context_first (resolve : Option ParentComponent → ContextValue)
    (ambient : PriorityLevel) (element : Option Elem) (root : FiberRoot)
    (pc : Option ParentComponent) (cb : Option Callback)
    (h : root.context = none) :
    (updateContainer resolve ambient element root pc cb).1.context
        = some (resolve pc) ∧
    (updateContainer resolve ambient element root pc cb).1.pendingContext
        = root.pendingContext := by
  simp [updateContainer, h]

theorem updateContainer_context_later (resolve : Option ParentComponent → ContextValue)
    (ambient : PriorityLevel) (element : Option Elem) (root : FiberRoot)
    (pc : Option ParentComponent) (cb : Option Callback)
    (h : root.context ≠ none) :
    (updateContainer resolve ambient element root pc cb).1.pendingContext
        = some (resolve pc) ∧
    (updateContainer resolve ambient element root pc cb).1.context
        = root.context := by
  simp [updateContainer, h]

/-- After at least one `updateContainer` call starting from a root whose
context is set, the context stays set. -/
theorem applyUCalls_context_isSome (resolve : Option ParentComponent → ContextValue)
    (root : FiberRoot) (cs : List UCall) (h : root.context ≠ none) :
    (applyUCalls resolve root cs).context ≠ none := by
  induction cs generalizing root with
  | nil => simpa [applyUCalls] using h
  | cons c cs ih =>
    simp only [applyUCalls, List.foldl_cons]
    refine ih _ ?_
    simp [applyUCall, updateContainer, h]

/-- C1: For every root and every sequence of `updateContainer` calls on it:
the first call (root fresh from `createFiberRoot`, so `root.context` is
null) sets `root.context` to the resolved context and leaves
`root.pendingContext` untouched; every later call (after the first call and
any number of further calls) sets `root.pendingContext` to the newly
resolved context and leaves `root.context` unchanged. -/
theorem updateContainer_context_propagation
    (resolve : Option ParentComponent → ContextValue) (info : Nat)
    (c0 : UCall) (cs : List UCall) (c : UCall) :
    (applyUCall resolve (createFiberRoot info) c0).context
        = some (resolve c0.parentComponent) ∧
    (applyUCall resolve (createFiberRoot info) c0).pendingContext
        = (createFiberRoot info).pendingContext ∧
    (applyUCall resolve
        (applyUCalls resolve (applyUCall resolve (createFiberRoot info) c0) cs)
        c).pendingContext = some (resolve c.parentComponent) ∧
    (applyUCall resolve
        (applyUCalls resolve (applyUCall resolve (createFiberRoot info) c0) cs)
        c).context
      = (applyUCalls resolve (applyUCall resolve (createFiberRoot info) c0) cs).context := by
  have h0 : (createFiberRoot info).context = none := rfl
  obtain ⟨hc, hp⟩ := updateContainer_context_first resolve c0.ambient c0.element
    (createFiberRoot info) c0.parentComponent c0.callback h0
  have h1 : (applyUCall resolve (createFiberRoot info) c0).context ≠ none := by
    simp [applyUCall, hc]
  have h2 := applyUCalls_context_isSome resolve _ cs h1
  obtain ⟨hp2, hc2⟩ := updateContainer_context_later resolve c.ambient c.element
    (applyUCalls resolve (applyUCall resolve (createFiberRoot info) c0) cs)
    c.parentComponent c.callback h2
  exact ⟨hc, hp, hp2, hc2⟩

/-- C2: Every call to `updateContainer` reads the ambient priority once via
`getPriorityContext`, enqueues exactly one update on the root's top fiber
carrying the element payload, the (possibly null) callback, and that
priority, and then calls `scheduleUpdate` on the same fiber with the same
priority, in that order: the call trace is exactly those three events. -/
theorem updateContainer_call_order (resolve : Option ParentComponent → ContextValue)
    (ambient : PriorityLevel) (element : Option Elem) (root : FiberRoot)
    (pc : Option ParentComponent) (cb : Option Callback) :
    (updateContainer resolve ambient element root pc cb).2 =
      [ REvent.getPriorityContext ambient,
        REvent.addTopLevelUpdate root.current element cb ambient,
        REvent.scheduleUpdate root.current ambient ] := by
  rfl

/-- A root whose top fiber has one child: a non-rendering (`comp`) node that
owns no output instance. -/
def rootWithCompChild : FiberRoot :=
  { current := .comp (.comp .null .null) .null
    containerInfo := 0
    context := none
    pendingContext := none }

/-- C5 counterexample: `getPublicRootInstance` returns null on a root whose
current top node does have a child (a child with a null `stateNode`), so
"returns null if and only if the top node has no child" fails. -/
theorem getPublicRootInstance_null_with_child :
    getPublicRootInstance rootWithCompChild = none ∧
    rootWithCompChild.current.childOf ≠ FiberLink.null := by
  decide

/-- C5 (amended): `getPublicRootInstance` returns the `stateNode` of the
current top node's child (null when there is no child, since a null child
has no `stateNode`); in particular it returns null exactly when the top
node has no child or that child owns no output instance. -/
theorem getPublicRootInstance_eq_child_stateNode (root : FiberRoot) :
    getPublicRootInstance root = root.current.childOf.stateNode ∧
    (getPublicRootInstance root = none
      ↔ root.current.childOf.stateNode = none) := by
  constructor
  · cases h : root.current.childOf with
    | null => simp [getPublicRootInstance, h, FiberLink.stateNode]
    | host i c s => simp [getPublicRootInstance, h]
    | comp c s => simp [getPublicRootInstance, h]
  · cases h : root.current.childOf with
    | null => simp [getPublicRootInstance, h, FiberLink.stateNode]
    | host i c s => simp [getPublicRootInstance, h]
    | comp c s => simp [getPublicRootInstance, h]

theorem findHostInList_eq_find (f : FiberLink) :
    findHostInList f = (preorderList f).find? ownsInstance := by
  induction f with
  | null => rfl
  | host i c s ihc ihs =>
    simp [findHostInList, preorderList, List.find?, ownsInstance, FiberLink.stateNode]
  | comp c s ihc ihs =>
    simp only [findHostInList, preorderList]
    rw [List.find?]
    simp only [ownsInstance, FiberLink.stateNode, Option.isSome_none, cond_false,
      List.find?_append, ← ihc, ← ihs]
    cases findHostInList c <;> simp [Option.orElse]

theorem findCurrentHostFiber_eq_find (f : FiberLink) :
    findCurrentHostFiber f = (preorderTree f).find? ownsInstance := by
  cases f with
  | null => rfl
  | host i c s =>
    simp [findCurrentHostFiber, preorderTree, List.find?, ownsInstance, FiberLink.stateNode]
  | comp c s =>
    simp only [findCurrentHostFiber, preorderTree]
    rw [List.find?]
    simp [ownsInstance, FiberLink.stateNode, findHostInList_eq_find]

/-- C6: `findHostInstance` returns the `stateNode` of the nearest (pre-order
first) node among the given work node and its descendants that owns a
concrete output instance, and returns null exactly when no such node
exists. -/
theorem findHostInstance_nearest_host (f : FiberLink) :
    findHostInstance f
        = ((preorderTree f).find? ownsInstance).bind FiberLink.stateNode ∧
    (findHostInstance f = none
      ↔ ∀ g ∈ preorderTree f, ¬ ownsInstance g) := by
  have heq : findHostInstance f
      = ((preorderTree f).find? ownsInstance).bind FiberLink.stateNode := by
    rw [findHostInstance, findCurrentHostFiber_eq_find]
    cases h : (preorderTree f).find? ownsInstance with
    | none => rfl
    | some g => simp
  refine ⟨heq, ?_⟩
  rw [heq]
  constructor
  · intro hnone g hg hga
    cases h : (preorderTree f).find? ownsInstance with
    | none =>
      rw [List.find?_eq_none] at h
      exact h g hg hga
    | some g' =>
      have hg' : ownsInstance g' := List.find?_some h
      rw [h] at hnone
      cases g' with
      | null => simp [ownsInstance, FiberLink.stateNode] at hg'
      | host i c s => simp [FiberLink.stateNode] at hnone
      | comp c s => simp [ownsInstance, FiberLink.stateNode] at hg'
  · intro hall
    have : (preorderTree f).find? ownsInstance = none := by
      rw [List.find?_eq_none]
      exact hall
    simp [this]

theorem scheduleUpdate_isBatching (s : SchedulerState) (r : RootId) (p : PriorityLevel) :
    (scheduleUpdate s r p).1.isBatchingUpdates = s.isBatchingUpdates := by
  unfold scheduleUpdate
  split_ifs <;> rfl

theorem mem_enqueueRoot (roots : List RootId) (r R : RootId) :
    R ∈ enqueueRoot roots r ↔ (R ∈ roots ∨ R = r) := by
  unfold enqueueRoot
  split_ifs with hm
  · constructor
    · exact Or.inl
    · rintro (h | rfl)
      · exact h
      · exact hm
  · simp

theorem enqueueRoot_nodup (roots : List RootId) (r : RootId) (h : roots.Nodup) :
    (enqueueRoot roots r).Nodup := by
  unfold enqueueRoot
  split_ifs with hm
  · exact h
  · simp [List.nodup_append, h, hm]

/-- While batching, a run of updates none of which targets root `R` at
Synchronous priority emits no commit for `R`. -/
theorem runUpdates_no_commit (us : List (RootId × PriorityLevel)) (s : SchedulerState)
    (R : RootId) (hb : s.isBatchingUpdates = true)
    (h : ∀ u ∈ us, u.1 = R → u.2 ≠ PriorityLevel.synchronousPriority) :
    (runUpdates s us).2.count (SEvent.commit R) = 0 := by
  induction us generalizing s with
  | nil => rfl
  | cons u rest ih =>
    obtain ⟨r, p⟩ := u
    simp only [runUpdates, List.count_append]
    have hrest : ∀ u ∈ rest, u.1 = R → u.2 ≠ PriorityLevel.synchronousPriority :=
      fun u hu => h u (List.mem_cons_of_mem _ hu)
    by_cases hp : p = PriorityLevel.synchronousPriority
    · have hr : r ≠ R := by
        intro hrR
        exact h (r, p) (List.mem_cons_self _ _) hrR hp
      rw [ih _ (by rw [scheduleUpdate_isBatching]; exact hb) hrest]
      simp [scheduleUpdate, hp, List.count_cons, hr]
    · rw [ih _ (by rw [scheduleUpdate_isBatching]; exact hb) hrest]
      simp [scheduleUpdate, hp, hb]

/-- While batching, a root that is pending (or receives a non-Synchronous
update during the run, with none of its updates Synchronous) is pending when
the run finishes. -/
theorem runUpdates_mem_pending (us : List (RootId × PriorityLevel)) (s : SchedulerState)
    (R : RootId) (hb : s.isBatchingUpdates = true)
    (hsrc : R ∈ s.pendingRoots ∨ ∃ p, (R, p) ∈ us)
    (h : ∀ u ∈ us, u.1 = R → u.2 ≠ PriorityLevel.synchronousPriority) :
    R ∈ (runUpdates s us).1.pendingRoots := by
  induction us generalizing s with
  | nil =>
    rcases hsrc with hmem | ⟨p, hp⟩
    · exact hmem
    · cases hp
  | cons u rest ih =>
    obtain ⟨r, p⟩ := u
    simp only [runUpdates]
    have hb1 : (scheduleUpdate s r p).1.isBatchingUpdates = true := by
      rw [scheduleUpdate_isBatching]; exact hb
    have hrest : ∀ u ∈ rest, u.1 = R → u.2 ≠ PriorityLevel.synchronousPriority :=
      fun u hu => h u (List.mem_cons_of_mem _ hu)
    refine ih _ hb1 ?_ hrest
    by_cases hp : p = PriorityLevel.synchronousPriority
    · have hr : r ≠ R := by
        intro hrR
        exact h (r, p) (List.mem_cons_self _ _) hrR hp
      rcases hsrc with hmem | ⟨q, hq⟩
      · left
        simp only [scheduleUpdate, hp, if_true, List.mem_filter, hmem, true_and]
        simp [Ne.symm hr]
      · rcases List.mem_cons.mp hq with heq | hqrest
        · exact absurd (congrArg Prod.fst heq).symm hr
        · exact Or.inr ⟨q, hqrest⟩
    · by_cases hrR : r = R
      · left
        subst hrR
        simp [scheduleUpdate, hp, hb, mem_enqueueRoot]
      · rcases hsrc with hmem | ⟨q, hq⟩
        · left
          simp [scheduleUpdate, hp, hb, mem_enqueueRoot, hmem]
        · rcases List.mem_cons.mp hq with heq | hqrest
          · exact absurd (congrArg Prod.fst heq).symm hrR
          · exact Or.inr ⟨q, hqrest⟩

theorem runUpdates_nodup (us : List (RootId × PriorityLevel)) (s : SchedulerState)
    (h : s.pendingRoots.Nodup) : (runUpdates s us).1.pendingRoots.Nodup := by
  induction us generalizing s with
  | nil => exact h
  | cons u rest ih =>
    obtain ⟨r, p⟩ := u
    simp only [runUpdates]
    refine ih _ ?_
    unfold scheduleUpdate
    split_ifs
    · exact List.Nodup.filter _ h
    · exact enqueueRoot_nodup _ _ h
    · exact h

/-- C3: for every N ≥ 1 updates enqueued for the same root strictly inside
one `batchedUpdates(fn)` call, none at Synchronous priority, the adapter's
mutation calls for those updates occur during exactly one Commit Pipeline
run: the emitted event trace contains exactly one `commit` for that root. -/
theorem batchedUpdates_single_commit (updates : List (RootId × PriorityLevel)) (r : RootId)
    (h1 : ∃ p, (r, p) ∈ updates)
    (h2 : ∀ u ∈ updates, u.1 = r → u.2 ≠ PriorityLevel.synchronousPriority) :
    (batchedUpdates updates).count (SEvent.commit r) = 1 := by
  unfold batchedUpdates
  simp only [List.count_append]
  rw [runUpdates_no_commit updates _ r rfl h2]
  have hinj : Function.Injective SEvent.commit := by
    intro a b hab
    cases hab
    rfl
  rw [List.count_map_of_injective _ SEvent.commit hinj]
  have hmem : r ∈ (runUpdates { isBatchingUpdates := true, pendingRoots := [] } updates).1.pendingRoots :=
    runUpdates_mem_pending updates _ r rfl (Or.inr h1) h2
  have hnd : (runUpdates { isBatchingUpdates := true, pendingRoots := [] } updates).1.pendingRoots.Nodup :=
    runUpdates_nodup updates _ List.nodup_nil
  rw [List.count_eq_one_of_mem hnd hmem]

/-- Witness for C3 at a concrete input: two Task/Low priority updates for
root 0 inside one batch commit root 0 exactly once. -/
theorem batchedUpdates_single_commit_witness :
    (∃ p, ((0 : RootId), p) ∈
        [((0 : RootId), PriorityLevel.taskPriority), (0, PriorityLevel.lowPriority)]) ∧
    (∀ u ∈ [((0 : RootId), PriorityLevel.taskPriority), (0, PriorityLevel.lowPriority)],
        u.1 = 0 → u.2 ≠ PriorityLevel.synchronousPriority) ∧
    (batchedUpdates [((0 : RootId), PriorityLevel.taskPriority), (0, PriorityLevel.lowPriority)]).count
        (SEvent.commit 0) = 1 :=
  ⟨⟨PriorityLevel.taskPriority, by decide⟩, by decide,
    batchedUpdates_single_commit _ 0 ⟨PriorityLevel.taskPriority, by decide⟩ (by decide)⟩

end ReactFiber

namespace ReactDOMFiber

/-- C4: for every container argument that is null or whose nodeType is not
1 (element), 9 (document), or 11 (document fragment), the public entry
points `render`, `renderSubtreeIntoContainer`, and `unmountComponentAtNode`
throw an error with an empty call trace: no Root is allocated
(`createContainer` is never reached) and no other adapter call is made. -/
theorem invalid_container_rejected (element : ReactFiber.Elem)
    (containerNode : Option DOMContainerNode) (parentComponent : Option Nat)
    (callback : Option ReactFiber.Callback) (newRoot : Nat)
    (h : isValidContainer containerNode = false) :
    render element containerNode callback newRoot
        = (Except.error "Target container is not a DOM element.", []) ∧
    renderSubtreeIntoContainer parentComponent (some element) containerNode callback newRoot
        = (Except.error "Target container is not a DOM element.", []) ∧
    unmountComponentAtNode containerNode newRoot
        = (Except.error "unmountComponentAtNode(...): Target container is not a DOM element.", []) := by
  match containerNode with
  | none => exact ⟨by simp [render, isValidContainer], rfl, rfl⟩
  | some c =>
    refine ⟨?_, ?_, ?_⟩
    · simp [render, h]
    · simp [renderSubtreeIntoContainer, h]
    · simp [unmountComponentAtNode, h]

/-- Witness for C4 at a concrete input: a text node (nodeType 3) is rejected
by all three entry points with no calls made. -/
theorem invalid_container_rejected_witness :
    isValidContainer (some ⟨0, 3, [], none⟩) = false ∧
    (render 1 (some ⟨0, 3, [], none⟩) none 7
        = (Except.error "Target container is not a DOM element.", []) ∧
     renderSubtreeIntoContainer none (some 1) (some ⟨0, 3, [], none⟩) none 7
        = (Except.error "Target container is not a DOM element.", []) ∧
     unmountComponentAtNode (some ⟨0, 3, [], none⟩) 7
        = (Except.error "unmountComponentAtNode(...): Target container is not a DOM element.", [])) :=
  ⟨by decide, invalid_container_rejected 1 (some ⟨0, 3, [], none⟩) none none 7 (by decide)⟩

/-- C7: `unmountComponentAtNode` on a valid container that was never
rendered into (no root attached) is a no-op: the container is unchanged and
the call trace is empty, so no update is enqueued and zero adapter mutation
calls are made. -/
theorem unmount_never_rendered_noop (c : DOMContainerNode) (newRoot : Nat)
    (hv : isValidContainer (some c) = true) (hroot : c.reactRootContainer = none) :
    unmountComponentAtNode (some c) newRoot = (Except.ok c, []) := by
  simp [unmountComponentAtNode, hv, hroot]

/-- Witness for C7 at a concrete input: a valid empty element container with
no attached root. -/
theorem unmount_never_rendered_noop_witness :
    isValidContainer (some ⟨2, 1, [4, 5], none⟩) = true ∧
    (⟨2, 1, [4, 5], none⟩ : DOMContainerNode).reactRootContainer = none ∧
    unmountComponentAtNode (some ⟨2, 1, [4, 5], none⟩) 7
        = (Except.ok ⟨2, 1, [4, 5], none⟩, []) :=
  ⟨by decide, rfl, unmount_never_rendered_noop ⟨2, 1, [4, 5], none⟩ 7 (by decide) rfl⟩

/-- C8: on the first render into a DOM container (no `_reactRootContainer`),
every pre-existing child is removed (last child first) before the new Root
is created, and the initial update is enqueued inside `unbatchedUpdates`;
on every subsequent render into a container with an attached root, that
root is reused, the container is untouched, and no child is removed. -/
theorem render_first_clears_then_reuses (parentComponent : Option Nat)
    (children : Option ReactFiber.Elem) (c : DOMContainerNode)
    (callback : Option ReactFiber.Callback) (newRoot : Nat)
    (hv : isValidContainer (some c) = true) (hroot : c.reactRootContainer = none) :
    renderSubtreeIntoContainer parentComponent children (some c) callback newRoot
      = (Except.ok { c with children := [], reactRootContainer := some newRoot },
          (c.children.reverse.map fun ch => DEvent.removeChild c.self ch) ++
            [ DEvent.createContainer c.self,
              DEvent.unbatchedBegin,
              DEvent.updateContainerCall children newRoot parentComponent callback,
              DEvent.unbatchedEnd,
              DEvent.getPublicRootInstanceCall newRoot ]) ∧
    (∀ (c' : DOMContainerNode) (root : Nat), isValidContainer (some c') = true →
      c'.reactRootContainer = some root →
      renderSubtreeIntoContainer parentComponent children (some c') callback newRoot
        = (Except.ok c',
            [ DEvent.updateContainerCall children root parentComponent callback,
              DEvent.getPublicRootInstanceCall root ])) := by
  constructor
  · simp [renderSubtreeIntoContainer, hv, hroot]
  · intro c' root hv' hroot'
    simp [renderSubtreeIntoContainer, hv', hroot']

/-- Witness for C8 at concrete inputs: a first render into a container with
two children clears them (last first) before creating the root, and a
render into a container with an attached root reuses it without clearing. -/
theorem render_first_clears_then_reuses_witness :
    isValidContainer (some ⟨2, 1, [4, 5], none⟩) = true ∧
    (⟨2, 1, [4, 5], none⟩ : DOMContainerNode).reactRootContainer = none ∧
    isValidContainer (some ⟨3, 1, [6], some 9⟩) = true ∧
    (⟨3, 1, [6], some 9⟩ : DOMContainerNode).reactRootContainer = some 9 ∧
    renderSubtreeIntoContainer none (some 1) (some ⟨2, 1, [4, 5], none⟩) none 7
      = (Except.ok ⟨2, 1, [], some 7⟩,
          [ DEvent.removeChild 2 5,
            DEvent.removeChild 2 4,
            DEvent.createContainer 2,
            DEvent.unbatchedBegin,
            DEvent.updateContainerCall (some 1) 7 none none,
            DEvent.unbatchedEnd,
            DEvent.getPublicRootInstanceCall 7 ]) ∧
    renderSubtreeIntoContainer none (some 1) (some ⟨3, 1, [6], some 9⟩) none 7
      = (Except.ok ⟨3, 1, [6], some 9⟩,
          [ DEvent.updateContainerCall (some 1) 9 none none,
            DEvent.getPublicRootInstanceCall 9 ]) :=
  ⟨by decide, rfl, by decide, rfl,
    by
      exact (render_first_clears_then_reuses none (some 1) ⟨2, 1, [4, 5], none⟩
        none 7 (by decide) rfl).1,
    by
      exact (render_first_clears_then_reuses none (some 1) ⟨2, 1, [4, 5], none⟩
        none 7 (by decide) rfl).2 ⟨3, 1, [6], some 9⟩ 9 (by decide) rfl⟩

/-- C9: around every `prepareForCommit` / `resetAfterCommit` pair, the
browser event emitter's enabled flag is restored to the value it had before
`prepareForCommit`, events are disabled in the interval between the two
calls, and the module-level `eventsEnabled` and `selectionInformation`
variables are null again afterwards. -/
theorem prepare_reset_round_trip (s : DOMCommitState) :
    (resetAfterCommit (prepareForCommit s)).env.emitterEnabled = s.env.emitterEnabled ∧
    (prepareForCommit s).env.emitterEnabled = false ∧
    (resetAfterCommit (prepareForCommit s)).vars.eventsEnabled = none ∧
    (resetAfterCommit (prepareForCommit s)).vars.selectionInformation = none := by
  refine ⟨?_, rfl, rfl, rfl⟩
  cases h : s.env.emitterEnabled <;>
    simp [prepareForCommit, resetAfterCommit, setEnabled, restoreSelection, isEnabled, h]

theorem commitMountPass_eq_focus (inserted : List (Nat × String × Props)) :
    commitMountPass inserted =
      (inserted.filter fun e => shouldAutoFocusHostComponent e.2.1 e.2.2).map
        fun e => DEvent.focus e.1 := by
  unfold commitMountPass commitMount
  induction inserted.filter fun e => shouldAutoFocusHostComponent e.2.1 e.2.2 with
  | nil => rfl
  | cons e es ih => simp [List.flatMap_cons, ih]

/-- C10: `finalizeInitialChildren` returns true (requesting a deferred
mount effect) exactly when the type is button, input, select, or textarea
and `props.autoFocus` is truthy; the mount pass calls `commitMount` for
exactly the recorded nodes, and each such call unconditionally focuses the
instance. -/
theorem autoFocus_deferred_mount (domElement : Nat) (type : String) (props : Props)
    (rootContainerInstance handle : Nat) (inserted : List (Nat × String × Props)) :
    ((finalizeInitialChildren domElement type props rootContainerInstance).1 = true ↔
      ((type = "button" ∨ type = "input" ∨ type = "select" ∨ type = "textarea") ∧
        props.autoFocus = some true)) ∧
    commitMount domElement type props handle = [DEvent.focus domElement] ∧
    commitMountPass inserted =
      (inserted.filter fun e =>
          (finalizeInitialChildren e.1 e.2.1 e.2.2 rootContainerInstance).1).map
        fun e => DEvent.focus e.1 := by
  refine ⟨?_, rfl, ?_⟩
  · unfold finalizeInitialChildren shouldAutoFocusHostComponent
    split_ifs with hty
    · simp [hty]
    · simp [hty]
  · rw [commitMountPass_eq_focus]
    rfl

end ReactDOMFiber
